import Mathlib

/-
Verification of the clique audio output engine (Output package).

Shallow embedding of the data model and operations from:
  Output/Worker.py    (Barrier, Worker)
  Output/Group.py     (ActiveGroup, InactiveGroup)
  Output/Manager.py   (Manager.Output, Manager.Interrupt)
  Output/Storage.py   (HistoryRing, StreamQueue)
  Output/Messages.py  (OutboundPacket, OutboundMessage, BookmarkMessage)
  Output/Constants.py (group and speaker constants)

Machine integers are modelled as Nat/Int; Python dictionaries as association
lists; thread-mutable object state as explicit state passing.  External
collaborators (TTS engine, sound library, spell checker) are abstracted as
parameters, as the spec places them out of scope.
-/

set_option autoImplicit false

namespace Clique

/-! ## Output/Constants.py: group, speaker and bookmark constants -/

namespace Constants

/-- Group constant CONTEXT from Output/Constants.py. -/
def CONTEXT : Nat := 0

/-- Group constant ACTIVE_CTRL from Output/Constants.py. -/
def ACTIVE_CTRL : Nat := 1

/-- Group constant ACTIVE_PROG from Output/Constants.py. -/
def ACTIVE_PROG : Nat := 2

/-- Group constant INACTIVE_PROG from Output/Constants.py. -/
def INACTIVE_PROG : Nat := 3

/-- Group constant NARRATOR from Output/Constants.py. -/
def NARRATOR : Nat := 4

/-- Speaker constant CONTENT from Output/Constants.py. -/
def CONTENT : Nat := 0

/-- Speaker constant SUMMARY from Output/Constants.py. -/
def SUMMARY : Nat := 1

/-- Bookmark kind BM_SOUND from Output/Constants.py. -/
def BM_SOUND : Nat := 0

/-- Bookmark kind BM_SPEECH from Output/Constants.py. -/
def BM_SPEECH : Nat := 1

/-- HISTORY_SIZE from Output/Constants.py. -/
def HISTORY_SIZE : Nat := 50

/-- Internal command id SAY_WORD; generated by Input.Constants.GenCommandID,
an opaque fresh token, modelled as a fixed Nat. -/
def SAY_WORD : Nat := 100

/-- Internal command id SAY_DONE; generated by Input.Constants.GenCommandID,
an opaque fresh token, modelled as a fixed Nat. -/
def SAY_DONE : Nat := 102

end Constants

/-! ## Output/Worker.py: Barrier

Barrier holds an integer counter `value` (number of threads yet to arrive).
`Arrive` decrements it under a lock (the lock only makes the decrement atomic,
so the sequential model is the decrement itself); `IsDone` tests `value <= 0`.
The counter may go negative when more threads arrive than expected. -/

namespace Worker

/-- Barrier from Output/Worker.py: an atomic counter of threads yet to
arrive.  The threading.Lock only serializes the decrement. -/
structure Barrier where
  value : Int
  deriving DecidableEq

/-- Barrier.__init__: stores the expected number of threads. -/
def Barrier.init (value : Int) : Barrier :=
  { value := value }

/-- Barrier.Arrive: arrive at the barrier by decreasing value by one. -/
def Barrier.Arrive (b : Barrier) : Barrier :=
  { b with value := b.value - 1 }

/-- Barrier.IsDone: have all expected threads arrived? -/
def Barrier.IsDone (b : Barrier) : Bool :=
  b.value ≤ 0

/-- Iterated arrivals: the state of the barrier after `k` calls to Arrive. -/
def Barrier.arriveN (b : Barrier) : Nat → Barrier
  | 0 => b
  | k + 1 => (b.arriveN k).Arrive

end Worker

/-! ## Output/Messages.py: BookmarkMessage, OutboundMessage, OutboundPacket

Rendered speech audio and speech event queues are opaque native handles;
they are modelled as Nat identifiers.  Weak references to the originating
source are modelled by the identity (a Nat) of the referenced producer. -/

namespace Messages

/-- BookmarkMessage.bookmark_string: the XML form of the bookmark,
built exactly as the Python format string produces it. -/
def bookmarkString (kind : Nat) (payload : String) : String :=
  "<bookmark mark=" ++ "\"" ++ toString kind ++ ":" ++ payload ++ "\"" ++ " />"

/-- BookmarkMessage from Output/Messages.py: metadata inserted into a
speech stream.  Position is a character offset into the speech text
(mutated by ProcessBookmarks, hence Int); Length is the size of the
serialized bookmark string. -/
structure BookmarkMessage where
  Kind : Nat
  Position : Int
  Payload : String
  Length : Nat
  deriving DecidableEq

/-- BookmarkMessage.__init__: stores kind, position and payload, and
computes the serialized bookmark string length. -/
def BookmarkMessage.init (position : Int) (payload : String)
    (kind : Nat) : BookmarkMessage :=
  { Kind := kind, Position := position, Payload := payload,
    Length := (bookmarkString kind payload).length }

/-- OutboundMessage from Output/Messages.py.  SpeechAudio and SpeechEvents
are native pySonic handles, modelled as opaque Nat identifiers. -/
structure OutboundMessage where
  Speech : Option String
  Sound : Option String
  Spell : Bool
  Letters : Bool
  Listen : Bool
  Bookmarks : List BookmarkMessage
  IsXML : Bool
  SpeechAudio : Option Nat
  SpeechEvents : Option Nat
  Name : Option String
  Refresh : Bool
  deriving DecidableEq

/-- OutboundMessage.__init__ with the defaults from Output/Messages.py. -/
def OutboundMessage.init (speech : Option String)
    (sound : Option String) (spell : Bool)
    (letters : Bool) (listen : Bool)
    (bookmarks : List BookmarkMessage) (name : Option String)
    (refresh : Bool) : OutboundMessage :=
  { Speech := speech, Sound := sound, Spell := spell, Letters := letters,
    Listen := listen, Bookmarks := bookmarks, IsXML := false,
    SpeechAudio := none, SpeechEvents := none, Name := name,
    Refresh := refresh }

/-- OutboundMessage.Unprepare: throws away pre-rendered speech. -/
def OutboundMessage.Unprepare (m : OutboundMessage) : OutboundMessage :=
  { m with SpeechAudio := none, SpeechEvents := none }

/-- Python dict assignment messages[person] = m on an association list:
replaces the binding for an existing key, otherwise adds a new binding. -/
def setMsg (person : Nat) (m : OutboundMessage) :
    List (Nat × OutboundMessage) → List (Nat × OutboundMessage)
  | [] => [(person, m)]
  | kv :: rest =>
      if person = kv.1 then (person, m) :: rest
      else kv :: setMsg person m rest

/-- OutboundPacket from Output/Messages.py.  SourceID stands for the
identity behind the weakref to the originating source; HasInputMessage
records whether the InputMessage argument was not None (its only use in
this model is `self.Preemptive = self.InputMessage is not None`);
messages is the person-keyed dictionary of messages. -/
structure OutboundPacket where
  SourceID : Nat
  Group : Nat
  IntendedGroup : Nat
  HasInputMessage : Bool
  Listen : Bool
  Name : Option String
  Preemptive : Bool
  Time : Nat
  messages : List (Nat × OutboundMessage)
  deriving DecidableEq

/-- OutboundPacket.Initialize: sets the routing fields and derives
Preemptive from the presence of a triggering input message. -/
def OutboundPacket.Initialize (p : OutboundPacket) (sourceID : Nat)
    (hasMessage : Bool) (group : Nat) (listen : Bool) (name : Option String) :
    OutboundPacket :=
  { p with
    SourceID := sourceID
    Group := group
    IntendedGroup := group
    HasInputMessage := hasMessage
    Listen := listen
    Name := name
    Preemptive := hasMessage }

/-- OutboundPacket.__init__ with the defaults from Output/Messages.py:
Initialize, then Time = 0 and an empty message dictionary. -/
def OutboundPacket.init (sourceID : Nat) (hasMessage : Bool)
    (group : Nat) (listen : Bool)
    (name : Option String) : OutboundPacket :=
  (OutboundPacket.Initialize
    { SourceID := 0, Group := 0, IntendedGroup := 0, HasInputMessage := false,
      Listen := false, Name := none, Preemptive := false, Time := 0,
      messages := [] }
    sourceID hasMessage group listen name)

/-- OutboundPacket.GetMessage: dictionary lookup by person. -/
def OutboundPacket.GetMessage (p : OutboundPacket) (i : Nat) :
    Option OutboundMessage :=
  (p.messages.find? (fun kv => kv.1 = i)).map Prod.snd

/-- OutboundPacket.AddMessage: builds an OutboundMessage and stores it
under the given person key. -/
def OutboundPacket.AddMessage (p : OutboundPacket) (person : Nat)
    (speech : Option String) (sound : Option String)
    (spell : Bool) (letters : Bool) (listen : Bool)
    (bookmarks : List BookmarkMessage) (name : Option String)
    (refresh : Bool) : OutboundPacket :=
  { p with
    messages :=
      setMsg person
        (OutboundMessage.init speech sound spell letters listen bookmarks
          name refresh)
        p.messages }

/-- OutboundPacket.GetSize / Size property: number of messages. -/
def OutboundPacket.Size (p : OutboundPacket) : Nat :=
  p.messages.length

/-- Insertion into a key-sorted association list (ascending person keys). -/
def insertSortedMsg (kv : Nat × OutboundMessage) :
    List (Nat × OutboundMessage) → List (Nat × OutboundMessage)
  | [] => [kv]
  | kv2 :: rest =>
      if kv.1 ≤ kv2.1 then kv :: kv2 :: rest
      else kv2 :: insertSortedMsg kv rest

/-- OutboundPacket.__iter__: the stored messages in ascending key order
(the Python code sorts the dictionary keys before iterating). -/
def OutboundPacket.iter (p : OutboundPacket) : List OutboundMessage :=
  (p.messages.foldr insertSortedMsg []).map Prod.snd

/-- OutboundPacket.RouteTo: sets the routing group, and forces the packet
non-preemptive when the group is ACTIVE_PROG or beyond (a message from
outside the focus). -/
def OutboundPacket.RouteTo (p : OutboundPacket) (group : Nat) :
    OutboundPacket :=
  let p1 := { p with Group := group }
  if group ≥ Constants.ACTIVE_PROG then { p1 with Preemptive := false }
  else p1

/-- OutboundPacket.StampTime: stores the receive time, first write wins
(Python tests the falsiness of Time, initially 0). -/
def OutboundPacket.StampTime (p : OutboundPacket) (now : Nat) :
    OutboundPacket :=
  if p.Time = 0 then { p with Time := now } else p

end Messages

/-! ## Output/Group.py: ActiveGroup and InactiveGroup queue policies

The thread-shared state touched by Play, Stop and FilterEvents is the
incoming queue, the preempt event flag and (for InactiveGroup) the events
dictionary.  The plock only serializes these updates; the sequential model
is the update itself.  Queues (PeekQueue, Queue.Queue) are FIFO lists:
put appends at the tail, get takes from the head. -/

namespace Group

/-- The queue and preempt flag of an ActiveGroup. -/
structure ActiveGroupState where
  incoming : List Messages.OutboundPacket
  preempt : Bool
  deriving DecidableEq

/-- A freshly constructed ActiveGroup: empty PeekQueue, preempt clear. -/
def ActiveGroupState.init : ActiveGroupState :=
  { incoming := [], preempt := false }

/-- ActiveGroup.Play from Output/Group.py: a preemptive packet replaces
the incoming queue with a fresh queue holding only itself and sets the
preempt flag (under plock); a non-preemptive packet is appended. -/
def ActiveGroupState.Play (s : ActiveGroupState)
    (packet : Messages.OutboundPacket) : ActiveGroupState :=
  if packet.Preemptive then
    { incoming := [packet], preempt := true }
  else
    { s with incoming := s.incoming ++ [packet] }

/-- The events dictionary of an InactiveGroup: maps a source ID to the
stored (packet, source ID) pair, exactly the tuple the Python code keeps. -/
def EventsMap : Type := Nat → Option (Messages.OutboundPacket × Nat)

/-- The empty events dictionary. -/
def EventsMap.empty : EventsMap := fun _ => none

/-- One iteration of InactiveGroup.FilterEvents on a dequeued packet:
the packet is stored under its source ID (overwriting any previous entry
from the same source) and then made non-preemptive; since the dictionary
holds the same object that is mutated, the stored entry carries the
cleared flag.  Returns the updated dictionary and the mutated packet.
The ReferenceError branch (dead source weakref) is outside this model:
SourceID is total, so every source is live. -/
def filterEventsStep (events : EventsMap)
    (packet : Messages.OutboundPacket) :
    EventsMap × Messages.OutboundPacket :=
  let p := { packet with Preemptive := false }
  (fun s => if s = packet.SourceID then some (p, packet.SourceID)
            else events s,
   p)

/-- InactiveGroup.FilterEvents from Output/Group.py: drains the incoming
queue in FIFO order, keeping only the newest packet from each source.
Returns the final events dictionary and the packets in their final
(mutated) state, in the order they were drained. -/
def FilterEvents (incoming : List Messages.OutboundPacket)
    (events : EventsMap) :
    EventsMap × List Messages.OutboundPacket :=
  match incoming with
  | [] => (events, [])
  | packet :: rest =>
      let (events1, p) := filterEventsStep events packet
      let (eventsF, ps) := FilterEvents rest events1
      (eventsF, p :: ps)

end Group

/-! ## Output/Manager.py: Manager.Interrupt and Manager.Output -/

namespace Manager

/-- Manager.Interrupt from Output/Manager.py: the list of groups whose
Stop method is called, in call order, when the given group takes the
floor (none means silence all). -/
def Interrupt (group : Option Nat) : List Nat :=
  if group = none ∨ group = some Constants.CONTEXT then
    [Constants.ACTIVE_CTRL, Constants.ACTIVE_PROG,
     Constants.INACTIVE_PROG, Constants.NARRATOR]
  else if group = some Constants.ACTIVE_CTRL then
    [Constants.ACTIVE_PROG, Constants.INACTIVE_PROG]
  else
    []

/-- The processing Manager.Output applies to one (non-None) packet:
stamp the receive time, silence interrupted groups when the packet is
non-empty, then hand the packet to the Play method of groups[p.Group].
Returns the stamped packet, the groups stopped (in order), and the group
whose Play receives the packet. -/
def OutputPacket (p : Messages.OutboundPacket) (now : Nat) :
    Messages.OutboundPacket × List Nat × Nat :=
  let p1 := p.StampTime now
  let stops := if p1.Size > 0 then Interrupt (some p1.Group) else []
  (p1, stops, p1.Group)

end Manager

/-! ## Output/Messages.py: StreamMessage -/

namespace Messages

/-- StreamMessage from Output/Messages.py: notification of an event
within a speech stream.  Fields default to None in the constructor; Pop
fills only the ones relevant to the popped event. -/
structure StreamMessage where
  ID : Option Nat
  Sound : Option String
  Text : Option String
  AllText : Option String
  RawPosition : Option Int
  TruePosition : Option Int
  Difference : Option Int
  deriving DecidableEq

/-- StreamMessage.__init__ with every field at its None default. -/
def StreamMessage.default : StreamMessage :=
  { ID := none, Sound := none, Text := none, AllText := none,
    RawPosition := none, TruePosition := none, Difference := none }

end Messages

/-! ## Output/Storage.py: StreamQueue and HistoryRing -/

namespace Storage

/-- A pyTTS stream event.  EventType is reflected in the constructor:
word, bookmark and end-of-stream events are the ones StreamQueue keeps;
`other` stands for every other pyTTS event type, which the constructor
filters away.  A bookmark carries Name = "cmd:payload", modelled as the
two halves of that split.  StreamPosition is a byte offset into the
rendered audio. -/
inductive TTSEvent where
  | word (CharacterPosition : Nat) (Length : Nat) (StreamPosition : Nat)
  | bookmark (cmd : Nat) (payload : String) (StreamPosition : Nat)
  | endStream (StreamPosition : Nat)
  | other (StreamPosition : Nat)
  deriving DecidableEq

/-- Is the event one of the types StreamQueue.__init__ keeps
(word, bookmark, end stream)? -/
def TTSEvent.interesting : TTSEvent → Bool
  | .word _ _ _ => true
  | .bookmark _ _ _ => true
  | .endStream _ => true
  | .other _ => false

/-- StreamQueue.__init__ fix-up e.StreamPosition /= divisor
(Python 2 integer division). -/
def TTSEvent.divideStream (divisor : Nat) : TTSEvent → TTSEvent
  | .word c l sp => .word c l (sp / divisor)
  | .bookmark c p sp => .bookmark c p (sp / divisor)
  | .endStream sp => .endStream (sp / divisor)
  | .other sp => .other (sp / divisor)

/-- Python slice text[a:b] on a string. -/
def strSlice (s : String) (a b : Nat) : String :=
  String.mk ((s.toList.drop a).take (b - a))

/-- StreamQueue from Output/Storage.py: events of interest, the stream
text, the not-yet-passed bookmark tags, the running offset correcting
raw positions for inline XML tags, and the last corrected position. -/
structure StreamQueue where
  events : List TTSEvent
  text : String
  tags : List Messages.BookmarkMessage
  offset : Int
  last_pos : Int
  deriving DecidableEq

/-- StreamQueue.__init__: keep the word/bookmark/end events, divide the
stream positions by the bytes-per-sample divisor, copy the text and the
bookmark list, and zero the offset and last position.  self.text is
message.Speech; a stream only exists for rendered speech, so the None
case is read as the empty string. -/
def StreamQueue.init (tts_events : List TTSEvent)
    (message : Messages.OutboundMessage) (divisor : Nat) : StreamQueue :=
  { events := (tts_events.filter TTSEvent.interesting).map
      (TTSEvent.divideStream divisor)
    text := message.Speech.getD ""
    tags := message.Bookmarks
    offset := 0
    last_pos := 0 }

/-- StreamQueue.IsEmpty. -/
def StreamQueue.IsEmpty (q : StreamQueue) : Bool :=
  q.events.length = 0

/-- The while loop in StreamQueue.Pop for a word event at raw character
position cpos: while a tag remains and cpos plus the current offset lies
beyond the position of the first tag, drop that tag and subtract its
length from the offset. -/
def popTags (cpos : Int) (offset : Int) :
    List Messages.BookmarkMessage → Int × List Messages.BookmarkMessage
  | [] => (offset, [])
  | b :: rest =>
      if cpos + offset > b.Position then
        popTags cpos (offset - (b.Length : Int)) rest
      else
        (offset, b :: rest)

/-- StreamQueue.Pop from Output/Storage.py: removes the earliest event
and turns it into a StreamMessage.  A bookmark event with command
BM_SOUND becomes a sound message (other bookmark commands yield None); a
word event first consumes every tag its offset has passed, then reports
raw and true positions and the difference from the previous position; an
end-of-stream event consumes all remaining tags and reports the end of
the text.  Pop on an empty queue raises IndexError in Python; callers
guard with IsEmpty, and that case returns None here with the queue
unchanged. -/
def StreamQueue.Pop (q : StreamQueue) :
    Option Messages.StreamMessage × StreamQueue :=
  match q.events with
  | [] => (none, q)
  | e :: rest =>
      match e with
      | .bookmark cmd payload _ =>
          if cmd = Constants.BM_SOUND then
            (some { Messages.StreamMessage.default with Sound := some payload },
             { q with events := rest })
          else
            (none, { q with events := rest })
      | .word cpos len _ =>
          let (offset1, tags1) := popTags (cpos : Int) q.offset q.tags
          let tp : Int := (cpos : Int) + offset1
          let diff : Int := tp - q.last_pos
          (some { Messages.StreamMessage.default with
              ID := some Constants.SAY_WORD
              Text := some (strSlice q.text cpos (cpos + len))
              AllText := some q.text
              RawPosition := some (cpos : Int)
              TruePosition := some tp
              Difference := some diff },
           { q with events := rest, tags := tags1, offset := offset1,
                    last_pos := tp })
      | .endStream _ =>
          let offset1 : Int :=
            q.offset - ((q.tags.map (fun b => (b.Length : Int))).sum)
          let tp : Int := (q.text.length : Int) + offset1
          let diff : Int := tp - q.last_pos
          (some { Messages.StreamMessage.default with
              ID := some Constants.SAY_DONE
              RawPosition := some (q.text.length : Int)
              TruePosition := some tp
              Difference := some diff },
           { q with events := rest, tags := [], offset := offset1,
                    last_pos := tp })
      | .other _ =>
          (none, { q with events := rest })

/-- HistoryRing from Output/Storage.py: a bounded list of stored items,
newest first. -/
structure HistoryRing (α : Type) where
  max_size : Nat
  queue : List α
  curr : Nat

/-- HistoryRing.__init__: empty queue, index zero. -/
def HistoryRing.init (α : Type) (max_size : Nat) : HistoryRing α :=
  { max_size := max_size, queue := [], curr := 0 }

/-- HistoryRing.GetSize / Size property. -/
def HistoryRing.Size {α : Type} (r : HistoryRing α) : Nat :=
  r.queue.length

/-- HistoryRing.Push: when the ring is full the oldest element (the tail
of the list, Python queue.pop()) is evicted, then the new item is
inserted at the front (queue.insert(0, item)) and curr resets. -/
def HistoryRing.Push {α : Type} (r : HistoryRing α) (item : α) :
    HistoryRing α :=
  let q := if r.Size ≥ r.max_size then r.queue.dropLast else r.queue
  { r with queue := item :: q, curr := 0 }

/-- HistoryRing.IsEmpty. -/
def HistoryRing.IsEmpty {α : Type} (r : HistoryRing α) : Bool :=
  r.queue.length = 0

/-- A sequence of Push calls, oldest first. -/
def HistoryRing.PushAll {α : Type} (r : HistoryRing α) (l : List α) :
    HistoryRing α :=
  l.foldl HistoryRing.Push r

end Storage

/-! ## Output/Messages.py: OutboundMessage.Prepare

Prepare first runs the text-processing block (single-character
pronunciation, letter spelling, aspell-based spell checking, bookmark
insertion) whenever Speech is not None, then renders the speech audio
through the speech factory, but only when no rendered audio is cached.
The text-processing block and the factory are external collaborators
(regex engine, aspell, SAPI): they are abstracted as the parameters
textStep and create.  The block only rewrites Speech, Bookmarks and
IsXML; the theorem states this as a hypothesis on textStep. -/

namespace Messages

/-- OutboundMessage.Prepare: returns the message after the call, the
audio handle returned (self.SpeechAudio), and whether the speech factory
was invoked by this call. -/
def OutboundMessage.Prepare (textStep : OutboundMessage → OutboundMessage)
    (create : OutboundMessage → Nat × Nat) (m : OutboundMessage) :
    OutboundMessage × Option Nat × Bool :=
  let m1 := if m.Speech.isSome then textStep m else m
  match m1.SpeechAudio with
  | some a => (m1, some a, false)
  | none =>
      let (audio, events) := create m1
      ({ m1 with SpeechAudio := some audio, SpeechEvents := some events },
       some audio, true)

end Messages

/-! ## Output/Group.py: InactiveGroup.FindMostInformative and HandleEvent

Python exceptions are modelled with Except: len(None) raises TypeError
(Python 2), and indexing self.speakers with a missing group raises
KeyError.  Group.run installs no exception handler around the phases, so
an error value here is an exception escaping the thread loop. -/

namespace Group

/-- Python runtime errors that the modelled code can raise. -/
inductive PyErr where
  | typeError
  | keyError
  deriving DecidableEq

/-- Python len(x) for an optional string: len(None) raises TypeError. -/
def pyLen : Option String → Except PyErr Nat
  | some s => Except.ok s.length
  | none => Except.error PyErr.typeError

/-- The loop of InactiveGroup.FindMostInformative over the messages of
the packet in iteration order.  curr is the (message, speech, sound)
triple, starting at (None, the empty string, None).  The first branch
tests m.Speech is not None and then compares len(m.Speech) with
len(curr[1]); the elif keeps the first message with a sound while no
message has been chosen. -/
def findMostInformativeGo
    (curr : Option Messages.OutboundMessage × Option String × Option String) :
    List Messages.OutboundMessage →
    Except PyErr (Option Messages.OutboundMessage)
  | [] => Except.ok curr.1
  | m :: rest =>
      match m.Speech with
      | some s =>
          match pyLen curr.2.1 with
          | Except.error e => Except.error e
          | Except.ok n =>
              if s.length > n then
                findMostInformativeGo (some m, m.Speech, m.Sound) rest
              else if curr.1.isNone && m.Sound.isSome then
                findMostInformativeGo (some m, m.Speech, m.Sound) rest
              else
                findMostInformativeGo curr rest
      | none =>
          if curr.1.isNone && m.Sound.isSome then
            findMostInformativeGo (some m, m.Speech, m.Sound) rest
          else
            findMostInformativeGo curr rest

/-- InactiveGroup.FindMostInformative from Output/Group.py: search a
packet for the message with the most speech text, else the lowest
numbered message with a sound. -/
def FindMostInformative (packet : Messages.OutboundPacket) :
    Except PyErr (Option Messages.OutboundMessage) :=
  findMostInformativeGo (none, some "", none) packet.iter

/-- InactiveGroup.HandleEvent from Output/Group.py, with the calls into
the speaker objects reduced to their failure behaviour: SilenceAll and
Play act on the audio threads and carry no state here, but looking up
self.speakers[packet.Group] raises KeyError when the group is not a key.
speakers is the list of group keys of the speakers dictionary.  The
non-preemptive branch is the `if True:` arm the code always takes.
Returns the boolean HandleEvent returns, or the exception it raises. -/
def InactiveGroupHandleEvent (speakers : List Nat)
    (packet : Messages.OutboundPacket) : Except PyErr Bool :=
  if packet.Preemptive then
    match FindMostInformative packet with
    | Except.error e => Except.error e
    | Except.ok none => Except.ok false
    | Except.ok (some _) =>
        if packet.Group ∈ speakers then Except.ok true
        else Except.error PyErr.keyError
  else
    match FindMostInformative packet with
    | Except.error e => Except.error e
    | Except.ok _ =>
        if packet.Group ∈ speakers then Except.ok true
        else Except.error PyErr.keyError

/-- The HandleEvent phase as Group.run invokes it: run installs no
handler, so an exception raised by the phase propagates out of the
thread loop.  The result is what escapes the loop iteration: a normal
continue/complete, or the exception. -/
def InactiveGroupRunHandlePhase (speakers : List Nat)
    (packet : Messages.OutboundPacket) : Except PyErr Unit :=
  match InactiveGroupHandleEvent speakers packet with
  | Except.error e => Except.error e
  | Except.ok _ => Except.ok ()

/-- The keys of the speakers dictionary handed to the InactiveGroup by
Manager.__init__: the related speaker under ACTIVE_PROG and the outside
speaker under INACTIVE_PROG. -/
def inactiveSpeakerKeys : List Nat :=
  [Constants.ACTIVE_PROG, Constants.INACTIVE_PROG]

end Group

/-! ## Helper lemmas -/

theorem Worker.Barrier.value_arriveN (b : Worker.Barrier) (k : Nat) :
    (b.arriveN k).value = b.value - k := by
  induction k with
  | zero => simp [arriveN]
  | succ k ih =>
      simp only [arriveN, Arrive, ih]
      push_cast
      ring

theorem Storage.HistoryRing.init_queue {α : Type} (k : Nat) :
    (Storage.HistoryRing.init α k).queue = [] := rfl

theorem Storage.HistoryRing.init_max {α : Type} (k : Nat) :
    (Storage.HistoryRing.init α k).max_size = k := rfl

theorem Storage.HistoryRing.max_push {α : Type} (r : Storage.HistoryRing α)
    (x : α) : (r.Push x).max_size = r.max_size := rfl

theorem Storage.HistoryRing.max_pushAll {α : Type}
    (r : Storage.HistoryRing α) (l : List α) :
    (r.PushAll l).max_size = r.max_size := by
  induction l generalizing r with
  | nil => rfl
  | cons x rest ih => exact (ih (r.Push x)).trans rfl

theorem Storage.HistoryRing.queue_push {α : Type} (r : Storage.HistoryRing α)
    (x : α) :
    (r.Push x).queue
      = x :: (if r.queue.length ≥ r.max_size then r.queue.dropLast
              else r.queue) :=
  rfl

theorem Storage.HistoryRing.size_push_le {α : Type}
    (r : Storage.HistoryRing α) (x : α) (hk : 0 < r.max_size)
    (h : r.Size ≤ r.max_size) : (r.Push x).Size ≤ r.max_size := by
  simp only [Storage.HistoryRing.Size, Storage.HistoryRing.queue_push,
    List.length_cons] at h ⊢
  by_cases hfull : r.queue.length ≥ r.max_size
  · rw [if_pos hfull, List.length_dropLast]
    omega
  · rw [if_neg hfull]
    omega

theorem Storage.HistoryRing.size_pushAll_le {α : Type}
    (r : Storage.HistoryRing α) (l : List α) (hk : 0 < r.max_size)
    (h : r.Size ≤ r.max_size) : (r.PushAll l).Size ≤ (r.PushAll l).max_size := by
  induction l generalizing r with
  | nil => exact h
  | cons x rest ih =>
      have h1 := Storage.HistoryRing.size_push_le r x hk h
      exact ih (r.Push x) hk h1

theorem Storage.HistoryRing.queue_pushAll_of_room {α : Type}
    (l : List α) (r : Storage.HistoryRing α)
    (h : l.length + r.queue.length ≤ r.max_size) :
    (r.PushAll l).queue = l.reverse ++ r.queue := by
  induction l generalizing r with
  | nil => simp [Storage.HistoryRing.PushAll]
  | cons x rest ih =>
      have hx : (r.Push x).queue = x :: r.queue := by
        rw [Storage.HistoryRing.queue_push]
        have hnf : ¬ r.queue.length ≥ r.max_size := by
          simp only [List.length_cons] at h
          omega
        rw [if_neg hnf]
      have hrest : rest.length + (r.Push x).queue.length ≤ (r.Push x).max_size := by
        rw [hx, Storage.HistoryRing.max_push]
        simp only [List.length_cons] at h ⊢
        omega
      calc (r.PushAll (x :: rest)).queue
          = ((r.Push x).PushAll rest).queue := rfl
        _ = rest.reverse ++ (r.Push x).queue := ih (r.Push x) hrest
        _ = (x :: rest).reverse ++ r.queue := by simp [hx]

/-! ## Claim theorems -/

/-- C1: for every N >= 0, a fresh Barrier(N) after k calls to Arrive is done
exactly when k >= N: it is not done while k < N, becomes done at exactly N
arrivals, and stays done for every additional arrival; moreover each Arrive
strictly decreases the counter by one. -/
theorem barrier_done_iff_enough_arrivals (N k : Nat) :
    (((Worker.Barrier.init N).arriveN k).IsDone = true ↔ N ≤ k) ∧
    ((Worker.Barrier.init N).arriveN (k + 1)).value
      = ((Worker.Barrier.init N).arriveN k).value - 1 := by
  constructor
  · rw [Worker.Barrier.IsDone, Worker.Barrier.value_arriveN]
    simp only [decide_eq_true_eq, Worker.Barrier.init]
    omega
  · simp [Worker.Barrier.arriveN, Worker.Barrier.Arrive]

/-- C2: from any ActiveGroup state, Play of a preemptive packet p0, then
a non-preemptive packet pA, then a preemptive packet pB, with no dequeue
in between, leaves the incoming queue holding exactly pB (p0 and pA are
discarded) and the preempt flag set. -/
theorem activeGroup_preemptive_play_discards_queue
    (s : Group.ActiveGroupState)
    (p0 pA pB : Messages.OutboundPacket)
    (_h0 : p0.Preemptive = true) (_hA : pA.Preemptive = false)
    (hB : pB.Preemptive = true) :
    ((s.Play p0).Play pA).Play pB
      = { incoming := [pB], preempt := true } := by
  simp [Group.ActiveGroupState.Play, hB]

/-- C2 witness: the scenario at concrete packets. -/
theorem activeGroup_preemptive_play_discards_queue_witness :
    ((Group.ActiveGroupState.init.Play
        (Messages.OutboundPacket.init 7 true Constants.ACTIVE_CTRL false none)).Play
      ((Messages.OutboundPacket.init 8 true Constants.ACTIVE_CTRL false
          none).RouteTo Constants.ACTIVE_PROG)).Play
      (Messages.OutboundPacket.init 9 true Constants.ACTIVE_CTRL false none)
      = { incoming :=
            [Messages.OutboundPacket.init 9 true Constants.ACTIVE_CTRL
              false none]
          preempt := true } :=
  activeGroup_preemptive_play_discards_queue
    Group.ActiveGroupState.init
    (Messages.OutboundPacket.init 7 true Constants.ACTIVE_CTRL false none)
    ((Messages.OutboundPacket.init 8 true Constants.ACTIVE_CTRL false
        none).RouteTo Constants.ACTIVE_PROG)
    (Messages.OutboundPacket.init 9 true Constants.ACTIVE_CTRL false none)
    (by decide) (by decide) (by decide)

/-- C3: when two packets from the same producer are queued to an
InactiveGroup before any delivery, FilterEvents leaves exactly one
pending entry for that producer, namely the second packet (stored
non-preemptive), entries for other producers are untouched, and the
replaced first packet ends with its Preemptive flag forced to False. -/
theorem inactiveGroup_filter_keeps_newest (events : Group.EventsMap)
    (p1 p2 : Messages.OutboundPacket) (h : p1.SourceID = p2.SourceID) :
    (Group.FilterEvents [p1, p2] events).1 p1.SourceID
        = some ({ p2 with Preemptive := false }, p2.SourceID) ∧
    (Group.FilterEvents [p1, p2] events).2
        = [{ p1 with Preemptive := false },
           { p2 with Preemptive := false }] ∧
    (∀ s, s ≠ p1.SourceID → (Group.FilterEvents [p1, p2] events).1 s
        = events s) := by
  refine ⟨?_, ?_, ?_⟩
  · simp [Group.FilterEvents, Group.filterEventsStep, h]
  · simp [Group.FilterEvents, Group.filterEventsStep]
  · intro s hs
    simp only [Group.FilterEvents, Group.filterEventsStep]
    rw [if_neg (h ▸ hs), if_neg hs]

/-- C3 witness: two concrete packets sharing the producer identity 5. -/
theorem inactiveGroup_filter_keeps_newest_witness :
    (Group.FilterEvents
        [Messages.OutboundPacket.init 5 true Constants.ACTIVE_PROG false none,
         Messages.OutboundPacket.init 5 true Constants.INACTIVE_PROG false
           none]
        Group.EventsMap.empty).1
      (Messages.OutboundPacket.init 5 true Constants.ACTIVE_PROG
        false none).SourceID
      = some
        ({ Messages.OutboundPacket.init 5 true Constants.INACTIVE_PROG false
            none with Preemptive := false },
         (Messages.OutboundPacket.init 5 true Constants.INACTIVE_PROG false
            none).SourceID) ∧
    (Group.FilterEvents
        [Messages.OutboundPacket.init 5 true Constants.ACTIVE_PROG false none,
         Messages.OutboundPacket.init 5 true Constants.INACTIVE_PROG false
           none]
        Group.EventsMap.empty).2
      = [{ Messages.OutboundPacket.init 5 true Constants.ACTIVE_PROG false
            none with Preemptive := false },
         { Messages.OutboundPacket.init 5 true Constants.INACTIVE_PROG false
            none with Preemptive := false }] ∧
    (∀ s, s ≠ (Messages.OutboundPacket.init 5 true Constants.ACTIVE_PROG
        false none).SourceID →
      (Group.FilterEvents
        [Messages.OutboundPacket.init 5 true Constants.ACTIVE_PROG false none,
         Messages.OutboundPacket.init 5 true Constants.INACTIVE_PROG false
           none]
        Group.EventsMap.empty).1 s = Group.EventsMap.empty s) :=
  inactiveGroup_filter_keeps_newest Group.EventsMap.empty
    (Messages.OutboundPacket.init 5 true Constants.ACTIVE_PROG false none)
    (Messages.OutboundPacket.init 5 true Constants.INACTIVE_PROG false none)
    (by decide)

/-- C4: Manager.Output timestamps a packet exactly once (a fresh packet
gets the current time, an already stamped packet keeps its stamp); when
the packet is non-empty it stops, before dispatch, exactly the groups
the interrupt table names for its routing group (all four other groups
for CONTEXT, the two program groups for ACTIVE_CTRL, none otherwise);
an empty packet stops nothing; and the packet goes to the Play method of
its routing group. -/
theorem manager_output_interrupt_table (p : Messages.OutboundPacket)
    (now : Nat) (hnow : 0 < now) :
    ((Manager.OutputPacket p now).1.Time
        = if p.Time = 0 then now else p.Time) ∧
    (Manager.OutputPacket p now).1.Time ≠ 0 ∧
    (p.Size > 0 → (p.Group = Constants.CONTEXT →
        (Manager.OutputPacket p now).2.1
          = [Constants.ACTIVE_CTRL, Constants.ACTIVE_PROG,
             Constants.INACTIVE_PROG, Constants.NARRATOR]) ∧
      (p.Group = Constants.ACTIVE_CTRL →
        (Manager.OutputPacket p now).2.1
          = [Constants.ACTIVE_PROG, Constants.INACTIVE_PROG]) ∧
      (p.Group ≠ Constants.CONTEXT → p.Group ≠ Constants.ACTIVE_CTRL →
        (Manager.OutputPacket p now).2.1 = [])) ∧
    (p.Size = 0 → (Manager.OutputPacket p now).2.1 = []) ∧
    (Manager.OutputPacket p now).2.2 = p.Group := by
  have hstamp : (p.StampTime now).Time = if p.Time = 0 then now else p.Time := by
    by_cases h : p.Time = 0 <;> simp [Messages.OutboundPacket.StampTime, h]
  have hgroup : (p.StampTime now).Group = p.Group := by
    by_cases h : p.Time = 0 <;> simp [Messages.OutboundPacket.StampTime, h]
  have hsize : (p.StampTime now).Size = p.Size := by
    by_cases h : p.Time = 0 <;>
      simp [Messages.OutboundPacket.StampTime, Messages.OutboundPacket.Size, h]
  refine ⟨?_, ?_, ?_, ?_, ?_⟩
  · simpa [Manager.OutputPacket] using hstamp
  · simp only [Manager.OutputPacket, hstamp]
    by_cases h : p.Time = 0
    · simp [h]
      omega
    · simp [h]
  · intro hpos
    refine ⟨?_, ?_, ?_⟩
    · intro hg
      simp [Manager.OutputPacket, Manager.Interrupt, hsize, hgroup, hpos, hg]
    · intro hg
      simp [Manager.OutputPacket, Manager.Interrupt, hsize, hgroup, hpos, hg,
        Constants.ACTIVE_CTRL, Constants.CONTEXT]
    · intro hg1 hg2
      simp only [Manager.OutputPacket, hsize, hgroup]
      rw [if_pos hpos, Manager.Interrupt]
      rw [if_neg, if_neg]
      · simpa using hg2
      · simpa using hg1
  · intro hzero
    simp [Manager.OutputPacket, hsize, hzero]
  · simp [Manager.OutputPacket, hgroup]

/-- C4 witness: a concrete non-empty packet routed to the context group,
stamped at time 42, stops the four other groups; the hypotheses of the
claim theorem are discharged at this input. -/
theorem manager_output_interrupt_table_witness :
    0 < 42 ∧
    (Manager.OutputPacket
        ((Messages.OutboundPacket.init 3 true Constants.CONTEXT false
            none).AddMessage 0 (some "hello") none false false false [] none
            false) 42).2.1
      = [Constants.ACTIVE_CTRL, Constants.ACTIVE_PROG,
         Constants.INACTIVE_PROG, Constants.NARRATOR] :=
  ⟨by decide,
   ((manager_output_interrupt_table
      ((Messages.OutboundPacket.init 3 true Constants.CONTEXT false
          none).AddMessage 0 (some "hello") none false false false [] none
          false) 42 (by decide)).2.2.1 (by decide)).1 (by decide)⟩

/-- C10: OutboundPacket.RouteTo sets the routing group, and as a side
effect forces the Preemptive flag to False exactly when the target group
number is ACTIVE_PROG (2) or greater; routing to CONTEXT (0) or
ACTIVE_CTRL (1) leaves the flag unchanged. -/
theorem routeTo_clears_preemptive_outside_focus
    (p : Messages.OutboundPacket) (group : Nat) :
    (p.RouteTo group).Group = group ∧
    (group ≥ Constants.ACTIVE_PROG →
      (p.RouteTo group).Preemptive = false) ∧
    (group < Constants.ACTIVE_PROG →
      (p.RouteTo group).Preemptive = p.Preemptive) := by
  refine ⟨?_, ?_, ?_⟩
  · by_cases h : group ≥ Constants.ACTIVE_PROG <;>
      simp [Messages.OutboundPacket.RouteTo, h]
  · intro h
    simp [Messages.OutboundPacket.RouteTo, h]
  · intro h
    simp [Messages.OutboundPacket.RouteTo, Nat.not_le_of_lt h]

/-- C10 witness: routing a preemptive packet to NARRATOR clears the
flag; the theorem applied at group 4. -/
theorem routeTo_clears_preemptive_outside_focus_witness :
    ((Messages.OutboundPacket.init 2 true Constants.ACTIVE_CTRL false
        none).RouteTo Constants.NARRATOR).Group = Constants.NARRATOR ∧
    (Constants.NARRATOR ≥ Constants.ACTIVE_PROG →
      ((Messages.OutboundPacket.init 2 true Constants.ACTIVE_CTRL false
          none).RouteTo Constants.NARRATOR).Preemptive = false) ∧
    (Constants.NARRATOR < Constants.ACTIVE_PROG →
      ((Messages.OutboundPacket.init 2 true Constants.ACTIVE_CTRL false
          none).RouteTo Constants.NARRATOR).Preemptive
        = (Messages.OutboundPacket.init 2 true Constants.ACTIVE_CTRL false
            none).Preemptive) :=
  routeTo_clears_preemptive_outside_focus
    (Messages.OutboundPacket.init 2 true Constants.ACTIVE_CTRL false none)
    Constants.NARRATOR

/-- C6: for every HistoryRing with max_size k > 0 and every sequence of
pushed items, the size never exceeds k; while at most k items have been
pushed the queue holds exactly the pushed items newest first (so
iteration, which walks the queue, yields newest first); and pushing one
more item onto a ring holding k items keeps the size at k and evicts the
oldest stored item (the queue becomes the new item followed by all but
the first pushed item, newest first). -/
theorem historyRing_bounded_and_newest_first {α : Type} (k : Nat)
    (hk : 0 < k) (l : List α) :
    ((Storage.HistoryRing.init α k).PushAll l).Size ≤ k ∧
    (l.length ≤ k →
      ((Storage.HistoryRing.init α k).PushAll l).queue = l.reverse) ∧
    (l.length = k → ∀ x,
      (((Storage.HistoryRing.init α k).PushAll l).Push x).Size = k ∧
      (((Storage.HistoryRing.init α k).PushAll l).Push x).queue
        = x :: l.tail.reverse) := by
  have hmax : ((Storage.HistoryRing.init α k).PushAll l).max_size = k :=
    Storage.HistoryRing.max_pushAll _ l
  refine ⟨?_, ?_, ?_⟩
  · have := Storage.HistoryRing.size_pushAll_le
      (Storage.HistoryRing.init α k) l hk (by simp [Storage.HistoryRing.init,
        Storage.HistoryRing.Size])
    rwa [hmax] at this
  · intro hlen
    have := Storage.HistoryRing.queue_pushAll_of_room l
      (Storage.HistoryRing.init α k)
      (by rw [Storage.HistoryRing.init_queue, Storage.HistoryRing.init_max]
          simp only [List.length_nil]
          omega)
    rw [Storage.HistoryRing.init_queue] at this
    simpa using this
  · intro hlen x
    have hq : ((Storage.HistoryRing.init α k).PushAll l).queue = l.reverse := by
      have := Storage.HistoryRing.queue_pushAll_of_room l
        (Storage.HistoryRing.init α k)
        (by rw [Storage.HistoryRing.init_queue, Storage.HistoryRing.init_max]
            simp only [List.length_nil]
            omega)
      rw [Storage.HistoryRing.init_queue] at this
      simpa using this
    have hfull : ((Storage.HistoryRing.init α k).PushAll l).queue.length
        ≥ ((Storage.HistoryRing.init α k).PushAll l).max_size := by
      rw [hq, hmax, List.length_reverse, hlen]
    have hq2 : (((Storage.HistoryRing.init α k).PushAll l).Push x).queue
        = x :: l.tail.reverse := by
      rw [Storage.HistoryRing.queue_push, if_pos hfull, hq,
        List.dropLast_reverse]
    refine ⟨?_, hq2⟩
    rw [Storage.HistoryRing.Size, hq2]
    simp only [List.length_cons, List.length_reverse, List.length_tail]
    omega

/-- C6 witness: a ring of capacity 2 receiving three pushes keeps size 2,
evicts the first item and iterates newest first. -/
theorem historyRing_bounded_and_newest_first_witness :
    0 < 2 ∧
    ((Storage.HistoryRing.init Nat 2).PushAll [10, 20]).Size ≤ 2 ∧
    (([10, 20] : List Nat).length ≤ 2 →
      ((Storage.HistoryRing.init Nat 2).PushAll [10, 20]).queue
        = ([10, 20] : List Nat).reverse) ∧
    (([10, 20] : List Nat).length = 2 → ∀ x,
      (((Storage.HistoryRing.init Nat 2).PushAll [10, 20]).Push x).Size = 2 ∧
      (((Storage.HistoryRing.init Nat 2).PushAll [10, 20]).Push x).queue
        = x :: ([10, 20] : List Nat).tail.reverse) :=
  ⟨by decide, historyRing_bounded_and_newest_first 2 (by decide) [10, 20]⟩

/-- C5: for a StreamQueue built from a message carrying one bookmark at
original position 0 with serialized length L, popping a word event whose
raw character position is L + 3 yields a StreamMessage whose
TruePosition is 3; and in general, while a word position plus the
running offset lies past the first pending bookmark, that bookmark is
consumed and its Length is subtracted from the running offset applied to
every subsequent raw position. -/
theorem streamQueue_recovers_true_position (payload text : String)
    (wlen sp divisor : Nat) :
    (((Storage.StreamQueue.init
        [Storage.TTSEvent.word
          ((Messages.BookmarkMessage.init 0 payload Constants.BM_SOUND).Length
            + 3) wlen sp]
        (Messages.OutboundMessage.init (some text) none false false false
          [Messages.BookmarkMessage.init 0 payload Constants.BM_SOUND] none
          false)
        divisor).Pop).1.bind Messages.StreamMessage.TruePosition)
      = some 3 ∧
    (∀ (cpos offset : Int) (b : Messages.BookmarkMessage)
        (rest : List Messages.BookmarkMessage),
      cpos + offset > b.Position →
      Storage.popTags cpos offset (b :: rest)
        = Storage.popTags cpos (offset - (b.Length : Int)) rest) := by
  constructor
  · have hbpos :
        (Messages.BookmarkMessage.init 0 payload Constants.BM_SOUND).Position
          = 0 := rfl
    have hmsg :
        (Messages.OutboundMessage.init (some text) none false false false
          [Messages.BookmarkMessage.init 0 payload Constants.BM_SOUND] none
          false).Bookmarks
          = [Messages.BookmarkMessage.init 0 payload Constants.BM_SOUND] :=
      rfl
    simp only [Storage.StreamQueue.init, List.filter, Storage.TTSEvent.interesting,
      List.map, Storage.TTSEvent.divideStream, Storage.StreamQueue.Pop, hmsg,
      Storage.popTags, hbpos]
    rw [if_pos (by push_cast; omega)]
    simp only [Option.some_bind, Option.some.injEq]
    push_cast
    omega
  · intro cpos offset b rest h
    rw [Storage.popTags, if_pos h]

/-- C5 witness: the theorem applied at a concrete payload, text and word
event. -/
theorem streamQueue_recovers_true_position_witness :
    (((Storage.StreamQueue.init
        [Storage.TTSEvent.word
          ((Messages.BookmarkMessage.init 0 "ding.wav"
              Constants.BM_SOUND).Length + 3) 2 64]
        (Messages.OutboundMessage.init (some "hi there") none false false
          false
          [Messages.BookmarkMessage.init 0 "ding.wav" Constants.BM_SOUND]
          none false)
        2).Pop).1.bind Messages.StreamMessage.TruePosition)
      = some 3 :=
  (streamQueue_recovers_true_position "ding.wav" "hi there" 2 64 2).1

/-- C7: the claim describes FindMostInformative as a total choice
function (longest speech text, else lowest numbered message with a
sound, else None), matching its docstring; but on a packet whose
lowest numbered message has a sound and no speech while a later message
has speech, the loop stores None as the best speech text and the next
length comparison evaluates len(None), raising TypeError instead of
choosing the speech message.  This theorem evaluates the code at that
failing input. -/
theorem findMostInformative_raises_on_mixed_packet :
    Group.FindMostInformative
      (((Messages.OutboundPacket.init 6 false Constants.ACTIVE_PROG false
          none).AddMessage 0 none (some "new.wav") false false false [] none
          false).AddMessage 1 (some "new mail") none false false false []
          none false)
      = Except.error Group.PyErr.typeError := rfl

/-- C8: the claim states no invocation of the worker-loop phases lets an
exception escape the run loop; but InactiveGroup.HandleEvent invokes
FindMostInformative, which raises TypeError on a packet whose lowest
numbered message is sound-only while a later message carries speech, and
Group.run installs no handler, so the exception escapes the loop.  This
theorem evaluates the HandleEvent phase, as run invokes it with the
speaker keys the Manager installs, at that failing input. -/
theorem inactiveGroup_handle_phase_raises_on_mixed_packet :
    Group.InactiveGroupRunHandlePhase Group.inactiveSpeakerKeys
      (((Messages.OutboundPacket.init 6 false Constants.ACTIVE_PROG false
          none).AddMessage 0 none (some "new.wav") false false false [] none
          false).AddMessage 1 (some "new mail") none false false false []
          none false)
      = Except.error Group.PyErr.typeError := rfl

/-- C9: Prepare renders speech audio at most once: with rendered audio
already cached, Prepare returns the cached handle without invoking the
speech factory; a second Prepare after a first returns the same audio
and does not invoke the factory; and only after Unprepare, which clears
SpeechAudio and SpeechEvents, does the next Prepare invoke the factory
again.  textStep abstracts the external text-processing block, which
rewrites only Speech, Bookmarks and IsXML (the hypothesis hstep); create
abstracts speech_fac.Create. -/
theorem prepare_renders_speech_at_most_once
    (textStep : Messages.OutboundMessage → Messages.OutboundMessage)
    (create : Messages.OutboundMessage → Nat × Nat)
    (m : Messages.OutboundMessage)
    (hstep : ∀ x, (textStep x).SpeechAudio = x.SpeechAudio ∧
        (textStep x).SpeechEvents = x.SpeechEvents) :
    (∀ a, m.SpeechAudio = some a →
      (m.Prepare textStep create).2.1 = some a ∧
      (m.Prepare textStep create).2.2 = false) ∧
    (((m.Prepare textStep create).1.Prepare textStep create).2.1
        = (m.Prepare textStep create).2.1 ∧
     ((m.Prepare textStep create).1.Prepare textStep create).2.2 = false) ∧
    ((m.Prepare textStep create).1.Unprepare.SpeechAudio = none ∧
     (m.Prepare textStep create).1.Unprepare.SpeechEvents = none ∧
     ((m.Prepare textStep create).1.Unprepare.Prepare textStep create).2.2
        = true) := by
  have hm1 : ∀ x : Messages.OutboundMessage,
      (if x.Speech.isSome then textStep x else x).SpeechAudio
        = x.SpeechAudio := by
    intro x
    by_cases h : x.Speech.isSome
    · rw [if_pos h, (hstep x).1]
    · rw [if_neg h]
  have key : ∀ (x : Messages.OutboundMessage) (a : Nat),
      x.SpeechAudio = some a →
      x.Prepare textStep create
        = ((if x.Speech.isSome then textStep x else x), some a, false) := by
    intro x a hx
    have h2 : (if x.Speech.isSome then textStep x else x).SpeechAudio
        = some a := (hm1 x).trans hx
    simp only [Messages.OutboundMessage.Prepare, h2]
  have keyFresh : ∀ x : Messages.OutboundMessage,
      x.SpeechAudio = none →
      (x.Prepare textStep create).2.2 = true ∧
      (x.Prepare textStep create).1.SpeechAudio
        = some (x.Prepare textStep create).2.1.iget := by
    intro x hx
    have h2 : (if x.Speech.isSome then textStep x else x).SpeechAudio
        = none := (hm1 x).trans hx
    simp only [Messages.OutboundMessage.Prepare, h2]
    exact ⟨trivial, trivial⟩
  have hfst : ∀ a : Nat, (m.Prepare textStep create).2.1 = some a →
      (m.Prepare textStep create).1.SpeechAudio = some a := by
    intro a ha
    cases hm : m.SpeechAudio with
    | some b =>
        have hk := key m b hm
        rw [hk] at ha ⊢
        simp only at ha
        rw [(hm1 m).trans hm]
        exact ha
    | none =>
        have hk := (keyFresh m hm).2
        cases hval : (m.Prepare textStep create).2.1 with
        | some c =>
            rw [hval] at hk ha
            simp only [Option.iget_some] at hk
            cases ha
            exact hk
        | none => rw [hval] at ha; cases ha
  have hsome : ∃ a : Nat, (m.Prepare textStep create).2.1 = some a := by
    cases hm : m.SpeechAudio with
    | some b =>
        refine ⟨b, ?_⟩
        rw [key m b hm]
    | none =>
        cases hval : (m.Prepare textStep create).2.1 with
        | some c => exact ⟨c, rfl⟩
        | none =>
            exfalso
            have hk := (keyFresh m hm).2
            rw [hval] at hk
            have h2 : (if m.Speech.isSome then textStep m else m).SpeechAudio
                = none := (hm1 m).trans hm
            simp only [Messages.OutboundMessage.Prepare, h2] at hval
            cases hval
  obtain ⟨a, ha⟩ := hsome
  have hfst1 : (m.Prepare textStep create).1.SpeechAudio = some a := hfst a ha
  refine ⟨?_, ?_, ?_, ?_, ?_⟩
  · intro b hb
    rw [key m b hb]
    exact ⟨rfl, rfl⟩
  · constructor
    · rw [key (m.Prepare textStep create).1 a hfst1, ha]
    · rw [key (m.Prepare textStep create).1 a hfst1]
  · rfl
  · rfl
  · have hclear :
        (m.Prepare textStep create).1.Unprepare.SpeechAudio = none := rfl
    exact ((keyFresh (m.Prepare textStep create).1.Unprepare) hclear).1

/-- C9 witness: the theorem applied with the identity text step, a
constant factory, and a message with speech and no cached audio; the
hstep hypothesis is discharged for the identity function. -/
theorem prepare_renders_speech_at_most_once_witness :
    ((((Messages.OutboundMessage.init (some "hello") none false false false
        [] none false).Prepare id (fun _ => (11, 12))).1.Prepare id
        (fun _ => (11, 12))).2.1
      = ((Messages.OutboundMessage.init (some "hello") none false false
          false [] none false).Prepare id (fun _ => (11, 12))).2.1 ∧
     (((Messages.OutboundMessage.init (some "hello") none false false false
        [] none false).Prepare id (fun _ => (11, 12))).1.Prepare id
        (fun _ => (11, 12))).2.2 = false) ∧
    (((Messages.OutboundMessage.init (some "hello") none false false false
        [] none false).Prepare id
        (fun _ => (11, 12))).1.Unprepare.Prepare id
        (fun _ => (11, 12))).2.2 = true :=
  ⟨(prepare_renders_speech_at_most_once id (fun _ => (11, 12))
      (Messages.OutboundMessage.init (some "hello") none false false false
        [] none false) (fun _ => ⟨rfl, rfl⟩)).2.1,
   (prepare_renders_speech_at_most_once id (fun _ => (11, 12))
      (Messages.OutboundMessage.init (some "hello") none false false false
        [] none false) (fun _ => ⟨rfl, rfl⟩)).2.2.2.2⟩

end Clique
